import Mathlib

/-!
# Verification of the jarilla turning-point detectors

Shallow embedding of the two streaming detectors of this repository:

* `src/quant_stats/zigzag_detector.py` — the Zigzag Pivot Detector
  (`ZigzagDetector`), a threshold-based alternating peak/valley detector.
* `src/quant_stats/extremos_realtime.py` — the Window Extremum Detector
  (`RealTimeExtremeDetector`), a centered-window local-extremum detector
  with a delayed confirmation protocol.

Prices are modelled as rationals (`ℚ`).  Python wall-clock `timestamp`
fields are omitted (they carry no algorithmic content).  Exceptional
control flow (Python `ZeroDivisionError` on a zero "from" price or zero
pip value, `AttributeError` on a missing last pivot) is modelled with
`Except Unit`; `raise ValueError` in a constructor is modelled the same
way.  List indexing and slicing mirror the Python semantics:
`pyLastSlice k l` is the Python slice `l[-k:]` (note `l[-0:]` is the
whole list).
-/

deriving instance DecidableEq for Except

-- Rational arithmetic is `@[irreducible]` upstream; re-open it inside
-- this development so concrete runs of the embedded detectors evaluate
-- in the kernel.  (The section closes at the end of the file.)
section RatKernelEval

attribute [local semireducible] Rat.mul Rat.add Rat.sub Rat.inv

/-- Python slice `l[-k:]`: the last `k` elements, the whole list when
`k = 0` (since `l[-0:] = l[0:]`) or when `k ≥ len(l)`. -/
def pyLastSlice (k : ℕ) (l : List ℚ) : List ℚ :=
  if k = 0 then l else l.drop (l.length - k)

/-- Python built-in `abs` on a rational (kept as an executable
definition so that concrete runs reduce; it agrees with `|x|`,
see `pyAbs_eq_abs`). -/
def pyAbs (x : ℚ) : ℚ :=
  if x < 0 then -x else x

/-! ## Zigzag Pivot Detector (`zigzag_detector.py`) -/

/-- `ZigzagDirection` enum. -/
inductive ZigzagDirection : Type
  | up
  | down
deriving DecidableEq, Repr

/-- The opposite direction (used to state the alternation invariant). -/
def flipDir : ZigzagDirection → ZigzagDirection
  | .up => .down
  | .down => .up

/-- `ZigzagMode` enum. -/
inductive ZigzagMode : Type
  | percentage
  | pips
  | absolute
deriving DecidableEq, Repr

/-- `ZigzagPoint.__init__` (the wall-clock `timestamp` field is omitted).
`confirmed` is initialised to `False` by the constructor; the detector
sets it to `True` on the pivots it emits. -/
structure ZigzagPoint where
  index : ℕ
  price : ℚ
  direction : ZigzagDirection
  confirmed : Bool
deriving DecidableEq, Repr

/-- The configuration fields stored by `ZigzagDetector.__init__`.
`minChangePct` is the already-divided value `min_change_pct / 100.0`. -/
structure ZigzagConfig where
  minChangePct : ℚ
  minChangePips : ℚ
  mode : ZigzagMode
  pipValue : ℚ
deriving DecidableEq, Repr

/-- `ZigzagDetector.__init__`: stores `min_change_pct / 100.0`, the pip
threshold, the mode and the pip value. -/
def mkZigzagDetector (min_change_pct min_change_pips : ℚ) (mode : ZigzagMode)
    (pip_value : ℚ) : ZigzagConfig :=
  { minChangePct := min_change_pct / 100
    minChangePips := min_change_pips
    mode := mode
    pipValue := pip_value }

/-- The mutable state of a `ZigzagDetector` (the `potential_pivot` field
of the Python class is never read or written after `__init__`/`reset`,
so it is omitted). -/
structure ZigzagState where
  prices : List ℚ
  priceIndex : ℕ
  currentTrend : Option ZigzagDirection
  lastPivot : Option ZigzagPoint
  zigzagPoints : List ZigzagPoint
deriving DecidableEq, Repr

/-- The freshly-constructed (or `reset`) detector state. -/
def initZigzagState : ZigzagState :=
  { prices := [], priceIndex := 0, currentTrend := none, lastPivot := none
    zigzagPoints := [] }

namespace ZigzagDetector

/-- `ZigzagDetector._calculate_change`.  A zero denominator
(`from_price` in PERCENTAGE mode, `pip_value` in PIPS mode) raises
`ZeroDivisionError` in Python, modelled as `.error ()`. -/
def calculateChange (cfg : ZigzagConfig) (from_price to_price : ℚ) :
    Except Unit ℚ :=
  match cfg.mode with
  | .percentage =>
      if from_price = 0 then .error ()
      else .ok ((to_price - from_price) / from_price * 100)
  | .pips =>
      if cfg.pipValue = 0 then .error ()
      else .ok ((to_price - from_price) / cfg.pipValue)
  | .absolute => .ok (to_price - from_price)

/-- `ZigzagDetector._is_significant_change`. -/
def isSignificantChange (cfg : ZigzagConfig) (change : ℚ) : Bool :=
  match cfg.mode with
  | .percentage => decide (pyAbs change ≥ cfg.minChangePct * 100)
  | .pips => decide (pyAbs change ≥ cfg.minChangePips)
  | .absolute => decide (pyAbs change ≥ cfg.minChangePct)

/-- `ZigzagDetector._is_potential_peak` (called with its default
`lookback = 3`): the window `prices[-4:]` must exist in full and its
maximum (first occurrence, as Python `list.index` finds it) must not sit
at the window's last position. -/
def isPotentialPeak (lookback : ℕ) (prices : List ℚ) : Bool :=
  if prices.length < lookback + 1 then false
  else
    let recent := pyLastSlice (lookback + 1) prices
    match recent.max? with
    | none => false
    | some m => decide (recent.findIdx (fun x => x == m) < recent.length - 1)

/-- `ZigzagDetector._is_potential_valley`. -/
def isPotentialValley (lookback : ℕ) (prices : List ℚ) : Bool :=
  if prices.length < lookback + 1 then false
  else
    let recent := pyLastSlice (lookback + 1) prices
    match recent.min? with
    | none => false
    | some m => decide (recent.findIdx (fun x => x == m) < recent.length - 1)

/-- `ZigzagDetector._get_recent_high` (default `lookback = 5`). -/
def getRecentHigh (lookback : ℕ) (prices : List ℚ) : Option ℚ :=
  if prices.length < lookback then prices.max?
  else (pyLastSlice lookback prices).max?

/-- `ZigzagDetector._get_recent_high_index`. -/
def getRecentHighIndex (lookback : ℕ) (prices : List ℚ) : Option ℕ :=
  let recent := if prices.length < lookback then prices
                else pyLastSlice lookback prices
  let offset := if prices.length < lookback then 0
                else prices.length - lookback
  match recent.max? with
  | none => none
  | some m => some (offset + recent.findIdx (fun x => x == m))

/-- `ZigzagDetector._get_recent_low`. -/
def getRecentLow (lookback : ℕ) (prices : List ℚ) : Option ℚ :=
  if prices.length < lookback then prices.min?
  else (pyLastSlice lookback prices).min?

/-- `ZigzagDetector._get_recent_low_index`. -/
def getRecentLowIndex (lookback : ℕ) (prices : List ℚ) : Option ℕ :=
  let recent := if prices.length < lookback then prices
                else pyLastSlice lookback prices
  let offset := if prices.length < lookback then 0
                else prices.length - lookback
  match recent.min? with
  | none => none
  | some m => some (offset + recent.findIdx (fun x => x == m))

/-- `ZigzagDetector._check_for_pivot`.  The state already contains the
appended current price, exactly as in `add_price`.  The locals `change`
and `significant_change` at the top of the Python method are dead except
for the `ZeroDivisionError` they can raise; the guard
`if peak_price and peak_index is not None` uses Python truthiness, so a
recent high/low equal to `0.0` falls through without confirming. -/
def checkForPivot (cfg : ZigzagConfig) (st : ZigzagState) (current_price : ℚ) :
    Except Unit (ZigzagState × Option ZigzagPoint) :=
  match st.lastPivot with
  | none => .ok (st, none)
  | some lp =>
    match calculateChange cfg lp.price current_price with
    | .error e => .error e
    | .ok _change =>
      match st.currentTrend with
      | some .up =>
        if isPotentialPeak 3 st.prices then
          match getRecentHigh 5 st.prices, getRecentHighIndex 5 st.prices with
          | some peak_price, some peak_index =>
            if peak_price ≠ 0 then
              match calculateChange cfg peak_price current_price with
              | .error e => .error e
              | .ok change_from_peak =>
                if isSignificantChange cfg change_from_peak ∧ change_from_peak < 0 then
                  let pivot : ZigzagPoint :=
                    ⟨peak_index, peak_price, .up, true⟩
                  .ok ({ st with
                          zigzagPoints := st.zigzagPoints ++ [pivot]
                          lastPivot := some pivot
                          currentTrend := some .down }, some pivot)
                else .ok (st, none)
            else .ok (st, none)
          | _, _ => .ok (st, none)
        else .ok (st, none)
      | some .down =>
        if isPotentialValley 3 st.prices then
          match getRecentLow 5 st.prices, getRecentLowIndex 5 st.prices with
          | some valley_price, some valley_index =>
            if valley_price ≠ 0 then
              match calculateChange cfg valley_price current_price with
              | .error e => .error e
              | .ok change_from_valley =>
                if isSignificantChange cfg change_from_valley ∧ change_from_valley > 0 then
                  let pivot : ZigzagPoint :=
                    ⟨valley_index, valley_price, .down, true⟩
                  .ok ({ st with
                          zigzagPoints := st.zigzagPoints ++ [pivot]
                          lastPivot := some pivot
                          currentTrend := some .up }, some pivot)
                else .ok (st, none)
            else .ok (st, none)
          | _, _ => .ok (st, none)
        else .ok (st, none)
      | none => .ok (st, none)

/-- `ZigzagDetector.add_price`.  On the second sample Python mutates
`self.last_pivot.direction`; a missing `last_pivot` there would raise
`AttributeError`, modelled as `.error ()`. -/
def addPrice (cfg : ZigzagConfig) (st : ZigzagState) (price : ℚ) :
    Except Unit (ZigzagState × Option ZigzagPoint) :=
  let st1 : ZigzagState :=
    { st with prices := st.prices ++ [price], priceIndex := st.priceIndex + 1 }
  if st1.prices.length = 1 then
    .ok ({ st1 with lastPivot := some ⟨0, price, .up, false⟩ }, none)
  else if st1.prices.length = 2 then
    match st1.lastPivot with
    | none => .error ()
    | some lp =>
      if price > st1.prices.headD 0 then
        .ok ({ st1 with
                currentTrend := some .up
                lastPivot := some { lp with direction := .down } }, none)
      else
        .ok ({ st1 with
                currentTrend := some .down
                lastPivot := some { lp with direction := .up } }, none)
  else checkForPivot cfg st1 price

/-- `ZigzagDetector.get_zigzag_points`. -/
def getZigzagPoints (st : ZigzagState) : List ZigzagPoint :=
  st.zigzagPoints

/-- `ZigzagDetector.get_last_pivot`. -/
def getLastPivot (st : ZigzagState) : Option ZigzagPoint :=
  st.lastPivot

/-- Drive the detector over a whole price list, collecting the pivots
returned by the successive `add_price` calls in order. -/
def run (cfg : ZigzagConfig) : ZigzagState → List ℚ →
    Except Unit (ZigzagState × List ZigzagPoint)
  | st, [] => .ok (st, [])
  | st, p :: rest =>
    match addPrice cfg st p with
    | .error e => .error e
    | .ok (st1, op) =>
      match run cfg st1 rest with
      | .error e => .error e
      | .ok (st2, out) => .ok (st2, op.toList ++ out)

/-- The pivots emitted over a whole stream, starting from a fresh
detector. -/
def emitted (cfg : ZigzagConfig) (l : List ℚ) : Except Unit (List ZigzagPoint) :=
  (run cfg initZigzagState l).map (·.2)

/-- The detector state after a whole stream, starting fresh. -/
def finalState (cfg : ZigzagConfig) (l : List ℚ) : Except Unit ZigzagState :=
  (run cfg initZigzagState l).map (·.1)

end ZigzagDetector

/-! ## Window Extremum Detector (`extremos_realtime.py`) -/

/-- `ExtremoState` enum. -/
inductive ExtremoState : Type
  | pending
  | confirmed
  | invalidated
deriving DecidableEq, Repr

/-- `ExtremoType` enum. -/
inductive ExtremoType : Type
  | maximo
  | minimo
deriving DecidableEq, Repr

/-- `Extremo.__init__` (the wall-clock `timestamp` field is omitted).
`index` is the global stream position `price_index - window_size +
center_idx`, a Python int, hence `ℤ`. -/
structure Extremo where
  index : ℤ
  price : ℚ
  tipo : ExtremoType
  state : ExtremoState
deriving DecidableEq, Repr

/-- The configuration stored by a successfully constructed
`RealTimeExtremeDetector`.  The runtime operations below are defined for
the natural-number sizes every validated-and-used configuration has;
construction over arbitrary Python ints (including its failure cases) is
modelled separately by `mkRealTimeExtremeDetector`. -/
structure RTConfig where
  windowSize : ℕ
  confirmationPeriods : ℕ
  minStrength : ℚ
deriving DecidableEq, Repr

/-- `RealTimeExtremeDetector.__init__` over Python ints: raises
`ValueError` when `window_size % 2 == 0` (Python modulo, i.e. `Int.emod`)
and, through `deque(maxlen=window_size + confirmation_periods)`, when
that sum is negative.  No other validation is performed. -/
def mkRealTimeExtremeDetector (window_size confirmation_periods : ℤ)
    (min_strength : ℚ) : Except Unit (ℤ × ℤ × ℚ) :=
  if window_size.emod 2 = 0 then .error ()
  else if window_size + confirmation_periods < 0 then .error ()
  else .ok (window_size, confirmation_periods, min_strength)

/-- `self.half_window = window_size // 2`. -/
def halfWindow (cfg : RTConfig) : ℕ :=
  cfg.windowSize / 2

/-- The mutable state of a `RealTimeExtremeDetector`.  `prices` models
the `deque(maxlen=window_size + confirmation_periods)` buffer. -/
structure ExtremeState where
  prices : List ℚ
  priceIndex : ℕ
  extremosPending : List Extremo
  extremosConfirmed : List Extremo
deriving DecidableEq, Repr

/-- The freshly-constructed detector state. -/
def initExtremeState : ExtremeState :=
  { prices := [], priceIndex := 0, extremosPending := []
    extremosConfirmed := [] }

/-- `deque.append` on a deque with `maxlen = m`: append on the right,
evict from the left beyond capacity. -/
def pushBounded (m : ℕ) (l : List ℚ) (p : ℚ) : List ℚ :=
  let l' := l ++ [p]
  l'.drop (l'.length - m)

namespace RealTimeExtremeDetector

/-- `RealTimeExtremeDetector._is_flat_region` (its default
`tolerance = 1e-6` is what the single call site uses). -/
def isFlatRegion (window : List ℚ) (center_idx : ℕ) (tolerance : ℚ) : Bool :=
  let center_price := window.getD center_idx 0
  window.all fun price => decide (pyAbs (price - center_price) ≤ tolerance)

/-- The values of `window` at the positions other than `center_idx`
(Python `[price for i, price in enumerate(window) if i != center_idx]`). -/
def othersOf (window : List ℚ) (center_idx : ℕ) : List ℚ :=
  ((List.range window.length).filter (fun i => i ≠ center_idx)).map
    (fun i => window.getD i 0)

/-- `RealTimeExtremeDetector._is_strong_extremo`.  Note the *signed*
average in the denominator of `strength`; the unused `is_maximum`
argument is kept for fidelity.  (When `window` has a single element the
Python code would divide by `len(other_prices) = 0`; that call is
unreachable because such a window is always a flat region.) -/
def isStrongExtremo (cfg : RTConfig) (window : List ℚ) (center_idx : ℕ)
    (_is_maximum : Bool) : Bool :=
  let center_price := window.getD center_idx 0
  let other_prices := othersOf window center_idx
  let avg_price := other_prices.sum / (other_prices.length : ℚ)
  if avg_price = 0 then false
  else decide (pyAbs (center_price - avg_price) / avg_price ≥ cfg.minStrength)

/-- `all(center_price >= price for i, price in enumerate(window) if i != center_idx)`. -/
def isLocalMaximum (window : List ℚ) (center_idx : ℕ) : Bool :=
  (List.range window.length).all fun i =>
    i == center_idx || decide (window.getD i 0 ≤ window.getD center_idx 0)

/-- `all(center_price <= price for i, price in enumerate(window) if i != center_idx)`. -/
def isLocalMinimum (window : List ℚ) (center_idx : ℕ) : Bool :=
  (List.range window.length).all fun i =>
    i == center_idx || decide (window.getD center_idx 0 ≤ window.getD i 0)

/-- `RealTimeExtremeDetector._detect_extremo`. -/
def detectExtremo (cfg : RTConfig) (st : ExtremeState) : Option Extremo :=
  if st.prices.length < cfg.windowSize then none
  else
    let window := pyLastSlice cfg.windowSize st.prices
    let center_idx := halfWindow cfg
    let center_price := window.getD center_idx 0
    let is_maximum := isLocalMaximum window center_idx
    let is_minimum := isLocalMinimum window center_idx
    if isFlatRegion window center_idx (1 / 1000000) then none
    else if (is_maximum || is_minimum) &&
        !(isStrongExtremo cfg window center_idx is_maximum) then none
    else if is_maximum then
      some ⟨(st.priceIndex : ℤ) - cfg.windowSize + center_idx, center_price,
        .maximo, .pending⟩
    else if is_minimum then
      some ⟨(st.priceIndex : ℤ) - cfg.windowSize + center_idx, center_price,
        .minimo, .pending⟩
    else none

/-- `RealTimeExtremeDetector._is_extremo_still_valid`. -/
def isExtremoStillValid (cfg : RTConfig) (st : ExtremeState) (e : Extremo) :
    Bool :=
  let start_idx := (max 0 ((st.prices.length : ℤ) -
    ((st.priceIndex : ℤ) - e.index))).toNat
  let subsequent_prices := st.prices.drop (start_idx + 1)
  if subsequent_prices.isEmpty then true
  else
    let recent := pyLastSlice cfg.confirmationPeriods subsequent_prices
    match e.tipo with
    | .maximo => recent.all fun price => decide (price ≤ e.price)
    | .minimo => recent.all fun price => decide (e.price ≤ price)

/-- `RealTimeExtremeDetector._check_confirmations`: every pending
extremum whose age `price_index - index` has reached
`confirmation_periods` is resolved exactly once — confirmed extrema are
appended (in pending order) to the confirmed list and returned, the rest
are invalidated and dropped. -/
def checkConfirmations (cfg : RTConfig) (st : ExtremeState) :
    List Extremo × ExtremeState :=
  let due := st.extremosPending.filter fun e =>
    decide ((cfg.confirmationPeriods : ℤ) ≤ (st.priceIndex : ℤ) - e.index)
  let kept := st.extremosPending.filter fun e =>
    !decide ((cfg.confirmationPeriods : ℤ) ≤ (st.priceIndex : ℤ) - e.index)
  let confirmados := (due.filter (isExtremoStillValid cfg st)).map
    fun e => { e with state := ExtremoState.confirmed }
  (confirmados,
    { st with
        extremosPending := kept
        extremosConfirmed := st.extremosConfirmed ++ confirmados })

/-- `RealTimeExtremeDetector.add_price`: returns the updated state and
the list of extrema newly confirmed by this call. -/
def addPrice (cfg : RTConfig) (st : ExtremeState) (price : ℚ) :
    ExtremeState × List Extremo :=
  let st1 : ExtremeState :=
    { st with
        prices := pushBounded (cfg.windowSize + cfg.confirmationPeriods)
          st.prices price
        priceIndex := st.priceIndex + 1 }
  let st2 : ExtremeState :=
    if cfg.windowSize ≤ st1.prices.length then
      match detectExtremo cfg st1 with
      | some e => { st1 with extremosPending := st1.extremosPending ++ [e] }
      | none => st1
    else st1
  if cfg.windowSize + cfg.confirmationPeriods ≤ st2.prices.length then
    let (confirmados, st3) := checkConfirmations cfg st2
    (st3, confirmados)
  else (st2, [])

/-- `RealTimeExtremeDetector.get_confirmed_extremos`. -/
def getConfirmedExtremos (st : ExtremeState) : List Extremo :=
  st.extremosConfirmed

/-- `RealTimeExtremeDetector.get_pending_extremos`. -/
def getPendingExtremos (st : ExtremeState) : List Extremo :=
  st.extremosPending

/-- Drive the detector over a whole price list. -/
def run (cfg : RTConfig) : ExtremeState → List ℚ → ExtremeState
  | st, [] => st
  | st, p :: rest => run cfg (addPrice cfg st p).1 rest

/-- The detector state after a whole stream, starting fresh. -/
def finalState (cfg : RTConfig) (l : List ℚ) : ExtremeState :=
  run cfg initExtremeState l

end RealTimeExtremeDetector

/-- The mean of the window values other than the center, as both the
strength filter and the specification's description of it compute it. -/
def windowMeanOthers (window : List ℚ) (center_idx : ℕ) : ℚ :=
  (RealTimeExtremeDetector.othersOf window center_idx).sum /
    ((RealTimeExtremeDetector.othersOf window center_idx).length : ℚ)

/-- The strength filter's rejection condition as the specification words
it: the absolute value of the mean in the denominator.  Stated from the
spec only so it can be compared against the code's `isStrongExtremo`. -/
def specStrengthRejects (min_strength : ℚ) (window : List ℚ)
    (center_idx : ℕ) : Prop :=
  windowMeanOthers window center_idx = 0 ∨
    pyAbs (window.getD center_idx 0 - windowMeanOthers window center_idx) /
      pyAbs (windowMeanOthers window center_idx) < min_strength

/-- Strict direction alternation of a pivot list: no two consecutive
pivots share a direction. -/
def dirAlternates : List ZigzagPoint → Bool
  | [] => true
  | [_] => true
  | a :: b :: rest =>
    decide (a.direction ≠ b.direction) && dirAlternates (b :: rest)

/-- The pivots emitted from a state whose trend is `t` start with
direction `t` and then alternate. -/
def chainFrom : ZigzagDirection → List ZigzagPoint → Prop
  | _, [] => True
  | t, pv :: rest => pv.direction = t ∧ chainFrom (flipDir t) rest

/-- The structural invariant of every reachable `ZigzagState`: the trend
is undefined exactly while fewer than two prices have been seen, and a
last pivot exists exactly from the first price on. -/
def ZigzagStateWF (st : ZigzagState) : Prop :=
  (st.currentTrend = none ↔ st.prices.length ≤ 1) ∧
  (st.lastPivot.isSome = true ↔ 1 ≤ st.prices.length)

/-- Confirmation invariant of a reachable `ZigzagState`: every pivot in
the emitted list is confirmed, the last pivot is confirmed once any
pivot has been emitted, and no pivot can have been emitted while at most
one price was seen. -/
def PivotsConfirmedWF (st : ZigzagState) : Prop :=
  (∀ pv ∈ st.zigzagPoints, pv.confirmed = true) ∧
  (st.zigzagPoints ≠ [] →
    ∃ pv, st.lastPivot = some pv ∧ pv.confirmed = true) ∧
  (st.prices.length ≤ 1 → st.zigzagPoints = [])

/-! ## Supporting lemmas -/

theorem pyAbs_eq_abs (x : ℚ) : pyAbs x = |x| := by
  unfold pyAbs
  split
  · exact (abs_of_neg (by assumption)).symm
  · exact (abs_of_nonneg (by linarith [not_lt.mp (by assumption)])).symm

/-- Exhaustive shape analysis of `_check_for_pivot`: it either raises,
returns the state unchanged with no pivot, or emits a confirmed pivot
whose direction is the current trend, appending it, making it the last
pivot and flipping the trend. -/
theorem checkForPivot_cases (cfg : ZigzagConfig) (st : ZigzagState) (p : ℚ) :
    ZigzagDetector.checkForPivot cfg st p = .error () ∨
    ZigzagDetector.checkForPivot cfg st p = .ok (st, none) ∨
    ∃ pv : ZigzagPoint, pv.confirmed = true ∧
      st.currentTrend = some pv.direction ∧
      ZigzagDetector.checkForPivot cfg st p =
        .ok ({ st with
                zigzagPoints := st.zigzagPoints ++ [pv]
                lastPivot := some pv
                currentTrend := some (flipDir pv.direction) }, some pv) := by
  cases hlp : st.lastPivot with
  | none =>
    right; left
    simp [ZigzagDetector.checkForPivot, hlp]
  | some lp =>
    cases hc : ZigzagDetector.calculateChange cfg lp.price p with
    | error e =>
      left
      cases e
      simp [ZigzagDetector.checkForPivot, hlp, hc]
    | ok c =>
      cases htr : st.currentTrend with
      | none =>
        right; left
        simp [ZigzagDetector.checkForPivot, hlp, hc, htr]
      | some d =>
        cases d with
        | up =>
          by_cases hp : ZigzagDetector.isPotentialPeak 3 st.prices = true
          · cases hh : ZigzagDetector.getRecentHigh 5 st.prices with
            | none =>
              right; left
              simp [ZigzagDetector.checkForPivot, hlp, hc, htr, hp, hh]
            | some peak_price =>
              cases hhi : ZigzagDetector.getRecentHighIndex 5 st.prices with
              | none =>
                right; left
                simp [ZigzagDetector.checkForPivot, hlp, hc, htr, hp, hh, hhi]
              | some peak_index =>
                by_cases hz : peak_price = 0
                · right; left
                  simp [ZigzagDetector.checkForPivot, hlp, hc, htr, hp, hh,
                    hhi, hz]
                · cases hc2 : ZigzagDetector.calculateChange cfg peak_price p
                    with
                  | error e =>
                    left
                    cases e
                    simp [ZigzagDetector.checkForPivot, hlp, hc, htr, hp, hh,
                      hhi, hz, hc2]
                  | ok c2 =>
                    by_cases hsig :
                        ZigzagDetector.isSignificantChange cfg c2 = true ∧
                          c2 < 0
                    · right; right
                      refine ⟨⟨peak_index, peak_price, .up, true⟩, rfl, rfl, ?_⟩
                      simp [ZigzagDetector.checkForPivot, hlp, hc, htr, hp, hh,
                        hhi, hz, hc2, hsig, flipDir]
                    · right; left
                      simp [ZigzagDetector.checkForPivot, hlp, hc, htr, hp, hh,
                        hhi, hz, hc2, hsig]
          · right; left
            simp [ZigzagDetector.checkForPivot, hlp, hc, htr, hp]
        | down =>
          by_cases hp : ZigzagDetector.isPotentialValley 3 st.prices = true
          · cases hh : ZigzagDetector.getRecentLow 5 st.prices with
            | none =>
              right; left
              simp [ZigzagDetector.checkForPivot, hlp, hc, htr, hp, hh]
            | some valley_price =>
              cases hhi : ZigzagDetector.getRecentLowIndex 5 st.prices with
              | none =>
                right; left
                simp [ZigzagDetector.checkForPivot, hlp, hc, htr, hp, hh, hhi]
              | some valley_index =>
                by_cases hz : valley_price = 0
                · right; left
                  simp [ZigzagDetector.checkForPivot, hlp, hc, htr, hp, hh,
                    hhi, hz]
                · cases hc2 : ZigzagDetector.calculateChange cfg valley_price p
                    with
                  | error e =>
                    left
                    cases e
                    simp [ZigzagDetector.checkForPivot, hlp, hc, htr, hp, hh,
                      hhi, hz, hc2]
                  | ok c2 =>
                    by_cases hsig :
                        ZigzagDetector.isSignificantChange cfg c2 = true ∧
                          c2 > 0
                    · right; right
                      refine ⟨⟨valley_index, valley_price, .down, true⟩, rfl,
                        rfl, ?_⟩
                      simp [ZigzagDetector.checkForPivot, hlp, hc, htr, hp, hh,
                        hhi, hz, hc2, hsig, flipDir]
                    · right; left
                      simp [ZigzagDetector.checkForPivot, hlp, hc, htr, hp, hh,
                        hhi, hz, hc2, hsig]
          · right; left
            simp [ZigzagDetector.checkForPivot, hlp, hc, htr, hp]

/-- Exhaustive shape analysis of a successful `add_price` call: the
price buffer and counter always grow; apart from that the call either
emits nothing (seeding the last pivot on the first price, setting the
trend and retyping the seed on the second, or leaving trend/last
pivot/pivot list unchanged), or emits a confirmed pivot whose direction
is the pre-call trend, appending it, making it the last pivot and
flipping the trend. -/
theorem addPrice_spec (cfg : ZigzagConfig) (st : ZigzagState) (p : ℚ)
    (st' : ZigzagState) (op : Option ZigzagPoint)
    (h : ZigzagDetector.addPrice cfg st p = .ok (st', op)) :
    st'.prices = st.prices ++ [p] ∧ st'.priceIndex = st.priceIndex + 1 ∧
    ((op = none ∧ st'.zigzagPoints = st.zigzagPoints ∧
       ((st.prices = [] ∧ st'.currentTrend = st.currentTrend ∧
           st'.lastPivot = some ⟨0, p, .up, false⟩) ∨
        (st.prices.length = 1 ∧ (∃ t, st'.currentTrend = some t) ∧
           (∃ lp d, st.lastPivot = some lp ∧
             st'.lastPivot = some { lp with direction := d })) ∨
        (2 ≤ st.prices.length ∧ st'.currentTrend = st.currentTrend ∧
           st'.lastPivot = st.lastPivot))) ∨
     (∃ pv, op = some pv ∧ pv.confirmed = true ∧ 2 ≤ st.prices.length ∧
        st.currentTrend = some pv.direction ∧
        st'.currentTrend = some (flipDir pv.direction) ∧
        st'.lastPivot = some pv ∧
        st'.zigzagPoints = st.zigzagPoints ++ [pv])) := by
  unfold ZigzagDetector.addPrice at h
  dsimp only at h
  by_cases h1 : (st.prices ++ [p]).length = 1
  · rw [if_pos h1] at h
    have hpair := Except.ok.inj h
    rw [Prod.mk.injEq] at hpair
    obtain ⟨hst, hop⟩ := hpair
    subst hst
    subst hop
    have hnil : st.prices = [] := by
      rw [List.length_append, List.length_singleton] at h1
      exact List.length_eq_zero.mp (by omega)
    exact ⟨rfl, rfl, Or.inl ⟨rfl, rfl, Or.inl ⟨hnil, rfl, rfl⟩⟩⟩
  · by_cases h2 : (st.prices ++ [p]).length = 2
    · rw [if_neg h1, if_pos h2] at h
      have hone : st.prices.length = 1 := by
        rw [List.length_append, List.length_singleton] at h2
        omega
      cases hlp : st.lastPivot with
      | none =>
        rw [hlp] at h
        cases h
      | some lp =>
        rw [hlp] at h
        dsimp only at h
        by_cases hgt : p > (st.prices ++ [p]).headD 0
        · rw [if_pos hgt] at h
          have hpair := Except.ok.inj h
          rw [Prod.mk.injEq] at hpair
          obtain ⟨hst, hop⟩ := hpair
          subst hst
          subst hop
          exact ⟨rfl, rfl, Or.inl ⟨rfl, rfl, Or.inr (Or.inl
            ⟨hone, ⟨.up, rfl⟩, lp, .down, rfl, rfl⟩)⟩⟩
        · rw [if_neg hgt] at h
          have hpair := Except.ok.inj h
          rw [Prod.mk.injEq] at hpair
          obtain ⟨hst, hop⟩ := hpair
          subst hst
          subst hop
          exact ⟨rfl, rfl, Or.inl ⟨rfl, rfl, Or.inr (Or.inl
            ⟨hone, ⟨.down, rfl⟩, lp, .up, rfl, rfl⟩)⟩⟩
    · rw [if_neg h1, if_neg h2] at h
      have hlen : 2 ≤ st.prices.length := by
        rw [List.length_append, List.length_singleton] at h1 h2
        omega
      rcases checkForPivot_cases cfg
          { st with prices := st.prices ++ [p], priceIndex := st.priceIndex + 1 }
          p with herr | hok | ⟨pv, hcf, htr, hemit⟩
      · rw [herr] at h
        cases h
      · rw [hok] at h
        have hpair := Except.ok.inj h
        rw [Prod.mk.injEq] at hpair
        obtain ⟨hst, hop⟩ := hpair
        subst hst
        subst hop
        exact ⟨rfl, rfl, Or.inl ⟨rfl, rfl, Or.inr (Or.inr ⟨hlen, rfl, rfl⟩)⟩⟩
      · rw [hemit] at h
        have hpair := Except.ok.inj h
        rw [Prod.mk.injEq] at hpair
        obtain ⟨hst, hop⟩ := hpair
        subst hst
        subst hop
        exact ⟨rfl, rfl, Or.inr ⟨pv, rfl, hcf, hlen, htr, rfl, rfl, rfl⟩⟩

/-- `add_price` preserves the structural invariant `ZigzagStateWF`. -/
theorem addPrice_wf (cfg : ZigzagConfig) (st : ZigzagState) (p : ℚ)
    (st' : ZigzagState) (op : Option ZigzagPoint) (hwf : ZigzagStateWF st)
    (h : ZigzagDetector.addPrice cfg st p = .ok (st', op)) :
    ZigzagStateWF st' := by
  obtain ⟨htr, hlpv⟩ := hwf
  obtain ⟨hpr, -, hcase⟩ := addPrice_spec cfg st p st' op h
  have hlen' : st'.prices.length = st.prices.length + 1 := by
    rw [hpr]
    simp
  rcases hcase with ⟨-, -, hsub⟩ | ⟨pv, -, -, hlen, -, htr', hlpv', -⟩
  · rcases hsub with ⟨hnil, htr', hlpv'⟩ | ⟨hone, ⟨t, htr'⟩, lp, d, -, hlpv'⟩ |
      ⟨hlen, htr', hlpv'⟩
    · have h0 : st.currentTrend = none := htr.mpr (by rw [hnil]; simp)
      constructor
      · rw [htr', h0, hlen', hnil]
        simp
      · rw [hlpv', hlen', hnil]
        simp
    · constructor
      · rw [htr', hlen', hone]
        simp
      · rw [hlpv', hlen']
        simp
    · have h0 : ¬ st.currentTrend = none := by
        intro hn
        have := htr.mp hn
        omega
      have h1 : st.lastPivot.isSome = true := hlpv.mpr (by omega)
      constructor
      · rw [htr', hlen']
        simp only [h0, false_iff]
        omega
      · rw [hlpv', hlen']
        simp [h1]
  · constructor
    · rw [htr', hlen']
      simp only [Option.some_ne_none, false_iff]
      omega
    · rw [hlpv', hlen']
      simp

/-- A successful run preserves `ZigzagStateWF` and appends the stream to
the price history. -/
theorem run_wf (cfg : ZigzagConfig) (l : List ℚ) :
    ∀ st st' out, ZigzagStateWF st →
      ZigzagDetector.run cfg st l = .ok (st', out) →
      ZigzagStateWF st' ∧ st'.prices = st.prices ++ l := by
  induction l with
  | nil =>
    intro st st' out hwf h
    unfold ZigzagDetector.run at h
    have hpair := Except.ok.inj h
    rw [Prod.mk.injEq] at hpair
    obtain ⟨hst, -⟩ := hpair
    subst hst
    exact ⟨hwf, by simp⟩
  | cons p rest ih =>
    intro st st' out hwf h
    unfold ZigzagDetector.run at h
    cases ha : ZigzagDetector.addPrice cfg st p with
    | error e =>
      rw [ha] at h
      cases h
    | ok r =>
      obtain ⟨st1, op⟩ := r
      rw [ha] at h
      dsimp only at h
      cases hr : ZigzagDetector.run cfg st1 rest with
      | error e =>
        rw [hr] at h
        cases h
      | ok r2 =>
        obtain ⟨st2, out2⟩ := r2
        rw [hr] at h
        dsimp only at h
        have hpair := Except.ok.inj h
        rw [Prod.mk.injEq] at hpair
        obtain ⟨hst, -⟩ := hpair
        subst hst
        have hwf1 := addPrice_wf cfg st p st1 op hwf ha
        obtain ⟨hwf2, hpr2⟩ := ih st1 st2 out2 hwf1 hr
        refine ⟨hwf2, ?_⟩
        rw [hpr2, (addPrice_spec cfg st p st1 op ha).1]
        simp

/-- From a state whose trend is `t`, a successful run emits a pivot
sequence that starts with direction `t` and alternates. -/
theorem run_chainFrom (cfg : ZigzagConfig) (l : List ℚ) :
    ∀ st st' out t, ZigzagStateWF st → st.currentTrend = some t →
      ZigzagDetector.run cfg st l = .ok (st', out) → chainFrom t out := by
  induction l with
  | nil =>
    intro st st' out t _ _ h
    unfold ZigzagDetector.run at h
    have hpair := Except.ok.inj h
    rw [Prod.mk.injEq] at hpair
    obtain ⟨-, hout⟩ := hpair
    subst hout
    exact trivial
  | cons p rest ih =>
    intro st st' out t hwf htrend h
    unfold ZigzagDetector.run at h
    cases ha : ZigzagDetector.addPrice cfg st p with
    | error e =>
      rw [ha] at h
      cases h
    | ok r =>
      obtain ⟨st1, op⟩ := r
      rw [ha] at h
      dsimp only at h
      cases hr : ZigzagDetector.run cfg st1 rest with
      | error e =>
        rw [hr] at h
        cases h
      | ok r2 =>
        obtain ⟨st2, out2⟩ := r2
        rw [hr] at h
        dsimp only at h
        have hpair := Except.ok.inj h
        rw [Prod.mk.injEq] at hpair
        obtain ⟨-, hout⟩ := hpair
        subst hout
        have hwf1 := addPrice_wf cfg st p st1 op hwf ha
        obtain ⟨-, -, hcase⟩ := addPrice_spec cfg st p st1 op ha
        rcases hcase with ⟨hop, -, hsub⟩ |
            ⟨pv, hop, -, hlen, htr0, htr1, -, -⟩
        · subst hop
          rcases hsub with ⟨hnil, -, -⟩ | ⟨hone, -, -⟩ | ⟨-, htr', -⟩
          · exact absurd (hwf.1.mpr (by rw [hnil]; simp)) (by rw [htrend]; simp)
          · exact absurd (hwf.1.mpr (by omega)) (by rw [htrend]; simp)
          · exact ih st1 st2 out2 t hwf1 (htr'.trans htrend) hr
        · subst hop
          have hdir : pv.direction = t :=
            Option.some.inj (htr0.symm.trans htrend)
          have hchain2 := ih st1 st2 out2 (flipDir t) hwf1
            (by rw [htr1, hdir]) hr
          exact ⟨hdir, hchain2⟩

theorem chainFrom_dirAlternates :
    ∀ (l : List ZigzagPoint) (t : ZigzagDirection),
      chainFrom t l → dirAlternates l = true := by
  intro l
  induction l with
  | nil => intro t _; rfl
  | cons a rest ih =>
    intro t h
    obtain ⟨ha, hrest⟩ := h
    cases rest with
    | nil => rfl
    | cons b rest2 =>
      have hb : b.direction = flipDir t := hrest.1
      have hne : a.direction ≠ b.direction := by
        rw [ha, hb]
        cases t <;> simp [flipDir]
      have htail := ih (flipDir t) hrest
      unfold dirAlternates
      simp [hne, htail]

/-- Any successful run from a well-formed state emits a strictly
alternating pivot sequence. -/
theorem run_dirAlternates (cfg : ZigzagConfig) (l : List ℚ) :
    ∀ st st' out, ZigzagStateWF st →
      ZigzagDetector.run cfg st l = .ok (st', out) →
      dirAlternates out = true := by
  induction l with
  | nil =>
    intro st st' out _ h
    unfold ZigzagDetector.run at h
    have hpair := Except.ok.inj h
    rw [Prod.mk.injEq] at hpair
    obtain ⟨-, hout⟩ := hpair
    subst hout
    rfl
  | cons p rest ih =>
    intro st st' out hwf h
    cases htrend : st.currentTrend with
    | some t =>
      exact chainFrom_dirAlternates out t
        (run_chainFrom cfg (p :: rest) st st' out t hwf htrend h)
    | none =>
      unfold ZigzagDetector.run at h
      cases ha : ZigzagDetector.addPrice cfg st p with
      | error e =>
        rw [ha] at h
        cases h
      | ok r =>
        obtain ⟨st1, op⟩ := r
        rw [ha] at h
        dsimp only at h
        cases hr : ZigzagDetector.run cfg st1 rest with
        | error e =>
          rw [hr] at h
          cases h
        | ok r2 =>
          obtain ⟨st2, out2⟩ := r2
          rw [hr] at h
          dsimp only at h
          have hpair := Except.ok.inj h
          rw [Prod.mk.injEq] at hpair
          obtain ⟨-, hout⟩ := hpair
          subst hout
          have hwf1 := addPrice_wf cfg st p st1 op hwf ha
          obtain ⟨-, -, hcase⟩ := addPrice_spec cfg st p st1 op ha
          rcases hcase with ⟨hop, -, -⟩ | ⟨pv, hop, -, -, htr0, -, -, -⟩
          · subst hop
            exact ih st1 st2 out2 hwf1 hr
          · rw [htrend] at htr0
            cases htr0

/-- `add_price` preserves `PivotsConfirmedWF`, and any pivot it returns
is confirmed. -/
theorem addPrice_pivots (cfg : ZigzagConfig) (st : ZigzagState) (p : ℚ)
    (st' : ZigzagState) (op : Option ZigzagPoint)
    (hwf : PivotsConfirmedWF st)
    (h : ZigzagDetector.addPrice cfg st p = .ok (st', op)) :
    PivotsConfirmedWF st' ∧ ∀ pv, op = some pv → pv.confirmed = true := by
  obtain ⟨hall, hlast, hempty⟩ := hwf
  obtain ⟨hpr, -, hcase⟩ := addPrice_spec cfg st p st' op h
  have hlen' : st'.prices.length = st.prices.length + 1 := by
    rw [hpr]
    simp
  rcases hcase with ⟨hop, hpts, hsub⟩ |
      ⟨pv, hop, hcf, hlen, -, -, hlpv', hpts⟩
  · subst hop
    refine ⟨?_, fun pv hpv => nomatch hpv⟩
    unfold PivotsConfirmedWF
    rcases hsub with ⟨hnil, -, -⟩ | ⟨hone, -, -⟩ | ⟨hlen, -, hlpv'⟩
    · have hptsnil : st.zigzagPoints = [] := hempty (by rw [hnil]; simp)
      rw [hpts, hptsnil]
      exact ⟨fun pv hpv => (nomatch hpv), fun hne => absurd rfl hne, fun _ => rfl⟩
    · have hptsnil : st.zigzagPoints = [] := hempty (by omega)
      rw [hpts, hptsnil]
      exact ⟨fun pv hpv => (nomatch hpv), fun hne => absurd rfl hne, fun _ => rfl⟩
    · rw [hpts, hlpv']
      refine ⟨hall, hlast, fun hle => ?_⟩
      rw [hlen'] at hle
      omega
  · subst hop
    unfold PivotsConfirmedWF
    refine ⟨⟨?_, ?_, ?_⟩, ?_⟩
    · rw [hpts]
      intro q hq
      rcases List.mem_append.mp hq with hq | hq
      · exact hall q hq
      · rw [List.mem_singleton] at hq
        subst hq
        exact hcf
    · intro _
      exact ⟨pv, hlpv', hcf⟩
    · intro hle
      rw [hlen'] at hle
      omega
    · intro q hq
      cases hq
      exact hcf

/-- A successful run preserves `PivotsConfirmedWF` and every emitted
pivot is confirmed. -/
theorem run_pivots (cfg : ZigzagConfig) (l : List ℚ) :
    ∀ st st' out, PivotsConfirmedWF st →
      ZigzagDetector.run cfg st l = .ok (st', out) →
      PivotsConfirmedWF st' ∧ ∀ pv ∈ out, pv.confirmed = true := by
  induction l with
  | nil =>
    intro st st' out hwf h
    unfold ZigzagDetector.run at h
    have hpair := Except.ok.inj h
    rw [Prod.mk.injEq] at hpair
    obtain ⟨hst, hout⟩ := hpair
    subst hst
    subst hout
    exact ⟨hwf, fun pv hpv => nomatch hpv⟩
  | cons p rest ih =>
    intro st st' out hwf h
    unfold ZigzagDetector.run at h
    cases ha : ZigzagDetector.addPrice cfg st p with
    | error e =>
      rw [ha] at h
      cases h
    | ok r =>
      obtain ⟨st1, op⟩ := r
      rw [ha] at h
      dsimp only at h
      cases hr : ZigzagDetector.run cfg st1 rest with
      | error e =>
        rw [hr] at h
        cases h
      | ok r2 =>
        obtain ⟨st2, out2⟩ := r2
        rw [hr] at h
        dsimp only at h
        have hpair := Except.ok.inj h
        rw [Prod.mk.injEq] at hpair
        obtain ⟨hst, hout⟩ := hpair
        subst hst
        subst hout
        obtain ⟨hwf1, hopconf⟩ := addPrice_pivots cfg st p st1 op hwf ha
        obtain ⟨hwf2, hout2⟩ := ih st1 st2 out2 hwf1 hr
        refine ⟨hwf2, fun pv hpv => ?_⟩
        rcases List.mem_append.mp hpv with hpv | hpv
        · cases op with
          | none => cases hpv
          | some q =>
            rw [Option.toList_some, List.mem_singleton] at hpv
            subst hpv
            exact hopconf pv rfl
        · exact hout2 pv hpv

/-- On a strictly increasing price buffer no candidate extremum is ever
detected: a one-element window is a flat region, and in any longer
(odd-sized) window the center is strictly above the first entry and
strictly below the last, so it is neither a local maximum nor a local
minimum. -/
theorem detectExtremo_of_chain (cfg : RTConfig) (st : ExtremeState)
    (hodd : cfg.windowSize % 2 = 1)
    (hchain : List.Chain' (· < ·) st.prices) :
    RealTimeExtremeDetector.detectExtremo cfg st = none := by
  unfold RealTimeExtremeDetector.detectExtremo
  dsimp only
  split
  · rfl
  rename_i hlen
  push_neg at hlen
  have hws1 : 1 ≤ cfg.windowSize := by omega
  set w := pyLastSlice cfg.windowSize st.prices with hw
  have hwdrop : w = st.prices.drop (st.prices.length - cfg.windowSize) := by
    rw [hw]
    unfold pyLastSlice
    rw [if_neg (by omega)]
  have hwchain : List.Chain' (· < ·) w := by
    rw [hwdrop]
    exact hchain.sublist (List.drop_suffix _ _).sublist
  have hwlen : w.length = cfg.windowSize := by
    rw [hwdrop, List.length_drop]
    omega
  by_cases h1 : cfg.windowSize = 1
  · obtain ⟨x, hx⟩ := List.length_eq_one.mp (by rw [hwlen, h1])
    have hflat : RealTimeExtremeDetector.isFlatRegion w (halfWindow cfg)
        (1 / 1000000) = true := by
      rw [hx]
      unfold RealTimeExtremeDetector.isFlatRegion halfWindow
      rw [h1]
      simp [pyAbs]
    rw [if_pos hflat]
  · have h3 : 3 ≤ cfg.windowSize := by omega
    have hhwlt : halfWindow cfg < cfg.windowSize - 1 := by
      unfold halfWindow
      omega
    have hhw1 : 1 ≤ halfWindow cfg := by
      unfold halfWindow
      omega
    have hget := List.pairwise_iff_get.mp (List.chain'_iff_pairwise.mp hwchain)
    have hmax : RealTimeExtremeDetector.isLocalMaximum w (halfWindow cfg) =
        false := by
      unfold RealTimeExtremeDetector.isLocalMaximum
      rw [Bool.eq_false_iff]
      intro hall
      rw [List.all_eq_true] at hall
      have hmem := hall (cfg.windowSize - 1)
        (List.mem_range.mpr (by rw [hwlen]; omega))
      rw [Bool.or_eq_true, beq_iff_eq, decide_eq_true_eq] at hmem
      rcases hmem with heq | hle
      · omega
      · have hi : halfWindow cfg < w.length := by rw [hwlen]; omega
        have hj : cfg.windowSize - 1 < w.length := by rw [hwlen]; omega
        have hlt := hget ⟨halfWindow cfg, hi⟩ ⟨cfg.windowSize - 1, hj⟩
          (by exact hhwlt)
        rw [List.getD_eq_getElem _ _ hj, List.getD_eq_getElem _ _ hi] at hle
        exact absurd hle (not_le.mpr hlt)
    have hmin : RealTimeExtremeDetector.isLocalMinimum w (halfWindow cfg) =
        false := by
      unfold RealTimeExtremeDetector.isLocalMinimum
      rw [Bool.eq_false_iff]
      intro hall
      rw [List.all_eq_true] at hall
      have hmem := hall 0 (List.mem_range.mpr (by rw [hwlen]; omega))
      rw [Bool.or_eq_true, beq_iff_eq, decide_eq_true_eq] at hmem
      rcases hmem with heq | hle
      · omega
      · have hi : halfWindow cfg < w.length := by rw [hwlen]; omega
        have hj : (0 : ℕ) < w.length := by rw [hwlen]; omega
        have hlt := hget ⟨0, hj⟩ ⟨halfWindow cfg, hi⟩ (by exact hhw1)
        rw [List.getD_eq_getElem _ _ hi, List.getD_eq_getElem _ _ hj] at hle
        exact absurd hle (not_le.mpr hlt)
    rw [hmax, hmin]
    simp

/-- One ingest of a Window Extremum Detector with empty pending and
confirmed lists keeps both empty whenever the updated price buffer is
strictly increasing, and updates the buffer as the bounded deque
append. -/
theorem addPriceE_empty (cfg : RTConfig) (st : ExtremeState) (p : ℚ)
    (hodd : cfg.windowSize % 2 = 1)
    (hchain : List.Chain' (· < ·)
      (pushBounded (cfg.windowSize + cfg.confirmationPeriods) st.prices p))
    (hp : st.extremosPending = []) (hc : st.extremosConfirmed = []) :
    (RealTimeExtremeDetector.addPrice cfg st p).1.extremosPending = [] ∧
    (RealTimeExtremeDetector.addPrice cfg st p).1.extremosConfirmed = [] ∧
    (RealTimeExtremeDetector.addPrice cfg st p).1.prices =
      pushBounded (cfg.windowSize + cfg.confirmationPeriods) st.prices p := by
  have hdet : RealTimeExtremeDetector.detectExtremo cfg
      { st with
          prices := pushBounded (cfg.windowSize + cfg.confirmationPeriods)
            st.prices p
          priceIndex := st.priceIndex + 1 } = none :=
    detectExtremo_of_chain cfg _ hodd hchain
  unfold RealTimeExtremeDetector.addPrice
  dsimp only
  rw [hdet]
  dsimp only
  rw [ite_self]
  split
  · unfold RealTimeExtremeDetector.checkConfirmations
    dsimp only
    rw [hp, hc]
    simp
  · exact ⟨hp, hc, rfl⟩

/-- Over any stream that keeps the whole price history strictly
increasing, a Window Extremum Detector that starts with empty pending
and confirmed lists never accumulates anything in either. -/
theorem runE_chain_empty (cfg : RTConfig) (hodd : cfg.windowSize % 2 = 1)
    (l : List ℚ) :
    ∀ st, List.Chain' (· < ·) (st.prices ++ l) →
      st.extremosPending = [] → st.extremosConfirmed = [] →
      (RealTimeExtremeDetector.run cfg st l).extremosPending = [] ∧
      (RealTimeExtremeDetector.run cfg st l).extremosConfirmed = [] := by
  induction l with
  | nil =>
    intro st _ hp hc
    exact ⟨hp, hc⟩
  | cons p rest ih =>
    intro st hchain hp hc
    have hsuffix : pushBounded (cfg.windowSize + cfg.confirmationPeriods)
        st.prices p <:+ st.prices ++ [p] := by
      unfold pushBounded
      exact List.drop_suffix _ _
    have hchain1 : List.Chain' (· < ·)
        (pushBounded (cfg.windowSize + cfg.confirmationPeriods) st.prices p ++
          rest) := by
      obtain ⟨u, hu⟩ := hsuffix
      refine hchain.sublist ?_
      have : (st.prices ++ [p]) ++ rest = st.prices ++ p :: rest := by
        rw [List.append_assoc, List.singleton_append]
      rw [← this, ← hu, List.append_assoc]
      exact (List.suffix_append u _).sublist
    obtain ⟨hp1, hc1, hpr1⟩ := addPriceE_empty cfg st p hodd
      (hchain1.sublist (List.sublist_append_left _ _)) hp hc
    unfold RealTimeExtremeDetector.run
    exact ih (RealTimeExtremeDetector.addPrice cfg st p).1
      (by rw [hpr1]; exact hchain1) hp1 hc1

/-! ## Claim theorems -/

/-- C1, counterexample: with `mode = PERCENTAGE`, `min_change = 10`, the
sequence `[100, 110, 90, 120]` does *not* produce the two claimed pivots
(UP at index 1 price 110, then DOWN at index 2 price 90). -/
theorem c1_counterexample :
    ZigzagDetector.emitted (mkZigzagDetector 10 15 .percentage (1/10000))
      [100, 110, 90, 120] ≠
      .ok [⟨1, 110, .up, true⟩, ⟨2, 90, .down, true⟩] := by
  decide

/-- C1, amended: that run emits no pivot at all.  On the ingest of 90
only three prices exist, fewer than the `lookback + 1 = 4` the potential
peak test requires; on the ingest of 120 the lookback window's maximum
sits at its final position, so again no potential peak is seen. -/
theorem c1_zigzag_emits_nothing :
    ZigzagDetector.emitted (mkZigzagDetector 10 15 .percentage (1/10000))
      [100, 110, 90, 120] = .ok [] := by
  decide

/-- C2, counterexample: with `window_size = 3`,
`confirmation_periods = 2`, `min_strength = 0` the run over
`[1, 1, 1, 5, 1, 1, 1]` does not confirm exactly one extremum. -/
theorem c2_counterexample :
    (RealTimeExtremeDetector.finalState ⟨3, 2, 0⟩
      [1, 1, 1, 5, 1, 1, 1]).extremosConfirmed.length ≠ 1 := by
  decide

/-- C2, amended: that run confirms exactly three extrema, in this
order: a MINIMUM at sequence index 2 with price 1, the MAXIMUM at
sequence index 3 with price 5, and a MINIMUM at sequence index 4 with
price 1 (the tied-center windows `[1,1,5]` and `[5,1,1]` also yield
candidates, and nothing subsequently falls below price 1). -/
theorem c2_spike_confirms_three :
    (RealTimeExtremeDetector.finalState ⟨3, 2, 0⟩
      [1, 1, 1, 5, 1, 1, 1]).extremosConfirmed =
      [⟨2, 1, .minimo, .confirmed⟩, ⟨3, 5, .maximo, .confirmed⟩,
        ⟨4, 1, .minimo, .confirmed⟩] := by
  decide

/-- C3, counterexample: for the window `[-1, -5, -1]` with center index
1 and `min_strength = 0`, the claim's condition (with `|mean|` in the
denominator) says the candidate is *not* rejected, yet the filter
rejects it: the code divides by the signed mean `-1`, making the
strength negative. -/
theorem c3_counterexample :
    RealTimeExtremeDetector.isStrongExtremo ⟨3, 1, 0⟩ [-1, -5, -1] 1 true =
      false ∧
    ¬ specStrengthRejects 0 [-1, -5, -1] 1 := by
  constructor
  · decide
  · unfold specStrengthRejects windowMeanOthers
    decide

/-- C3, amended: the strength filter rejects a candidate if and only if
the mean of the window values other than the center is exactly zero, or
`|center - mean| / mean < min_strength` with the *signed* mean in the
denominator (so a negative-mean window does not behave like the
corresponding positive-mean one: its strength quotient is nonpositive). -/
theorem c3_strength_filter_signed_mean (cfg : RTConfig) (window : List ℚ)
    (center_idx : ℕ) (is_maximum : Bool) :
    RealTimeExtremeDetector.isStrongExtremo cfg window center_idx
        is_maximum = false ↔
      (windowMeanOthers window center_idx = 0 ∨
        pyAbs (window.getD center_idx 0 - windowMeanOthers window center_idx) /
          windowMeanOthers window center_idx < cfg.minStrength) := by
  unfold RealTimeExtremeDetector.isStrongExtremo windowMeanOthers
  dsimp only
  split
  · simp_all
  · simp_all [not_le]

/-- C4, counterexample: in ABSOLUTE mode with `min_change = 100`
configured at construction, a change of 1 is reported significant,
although `|1| ≥ 100` fails: the constructor divided the configured value
by 100 and ABSOLUTE mode reuses that scaled field. -/
theorem c4_counterexample :
    ZigzagDetector.isSignificantChange
      (mkZigzagDetector 100 15 .absolute (1/10000)) 1 = true ∧
    ¬ (pyAbs (1 : ℚ) ≥ 100) := by
  decide

/-- C4, amended: in ABSOLUTE mode the change is the raw difference
`to - from`, and it is significant iff its absolute value is at least
the configured minimum-change value *divided by 100* (the constructor
rescales `min_change_pct` once, and ABSOLUTE mode reuses the rescaled
field as its threshold). -/
theorem c4_absolute_mode (m mp pv f t c : ℚ) :
    ZigzagDetector.calculateChange (mkZigzagDetector m mp .absolute pv) f t =
      .ok (t - f) ∧
    (ZigzagDetector.isSignificantChange (mkZigzagDetector m mp .absolute pv) c =
        true ↔ pyAbs c ≥ m / 100) := by
  constructor
  · rfl
  · simp [ZigzagDetector.isSignificantChange, mkZigzagDetector]

/-- C5, counterexample: `window_size = 3`, `confirmation_periods = 0`
(non-positive) constructs successfully, although the claim requires a
configuration error for every non-positive count parameter. -/
theorem c5_counterexample :
    mkRealTimeExtremeDetector 3 0 (3/10) = .ok (3, 0, 3/10) := by
  decide

/-- C5, amended: construction fails iff `window_size` is even in
Python's modulo sense, or `window_size + confirmation_periods` is
negative (the deque's `maxlen` must be non-negative).  In particular it
succeeds for every odd `window_size ≥ 3` with positive
`confirmation_periods`, but also for non-positive `confirmation_periods`
and for negative odd `window_size` whenever the sum stays non-negative:
no positivity validation is performed. -/
theorem c5_construction_iff (ws cp : ℤ) (ms : ℚ) :
    (∃ v, mkRealTimeExtremeDetector ws cp ms = .ok v) ↔
      (ws.emod 2 ≠ 0 ∧ 0 ≤ ws + cp) := by
  unfold mkRealTimeExtremeDetector
  split_ifs with h1 h2
  · simp_all
  · simp_all
  · simp_all

/-- C6, counterexample: with `window_size = 3`,
`confirmation_periods = 2`, `min_strength = 0`, the window `[1, 1, 5]`
creates a PENDING MINIMUM at its center although the sample at window
position 0 attains the center's value — the center is not the *unique*
extreme of its window. -/
theorem c6_counterexample :
    RealTimeExtremeDetector.detectExtremo ⟨3, 2, 0⟩ ⟨[1, 1, 5], 3, [], []⟩ =
      some ⟨1, 1, .minimo, .pending⟩ ∧
    (pyLastSlice 3 [1, 1, 5]).getD 0 0 = (pyLastSlice 3 [1, 1, 5]).getD 1 0 := by
  decide

/-- C6, amended: whenever `_detect_extremo` creates a (PENDING)
extremum, the window was not flat within tolerance `1e-6`, the strength
filter passed, the extremum's price is the window's center value, and
that center is a *weak* extreme of the window: every other window value
is `≤` it for a MAXIMUM and `≥` it for a MINIMUM — ties with other
samples are allowed, uniqueness is not required. -/
theorem c6_pending_weak_extreme (cfg : RTConfig) (st : ExtremeState)
    (e : Extremo)
    (h : RealTimeExtremeDetector.detectExtremo cfg st = some e) :
    RealTimeExtremeDetector.isFlatRegion (pyLastSlice cfg.windowSize st.prices)
        (halfWindow cfg) (1 / 1000000) = false ∧
    RealTimeExtremeDetector.isStrongExtremo cfg
        (pyLastSlice cfg.windowSize st.prices) (halfWindow cfg)
        (RealTimeExtremeDetector.isLocalMaximum
          (pyLastSlice cfg.windowSize st.prices) (halfWindow cfg)) = true ∧
    e.price = (pyLastSlice cfg.windowSize st.prices).getD (halfWindow cfg) 0 ∧
    ∀ i < (pyLastSlice cfg.windowSize st.prices).length, i ≠ halfWindow cfg →
      (e.tipo = .maximo →
        (pyLastSlice cfg.windowSize st.prices).getD i 0 ≤ e.price) ∧
      (e.tipo = .minimo →
        e.price ≤ (pyLastSlice cfg.windowSize st.prices).getD i 0) := by
  unfold RealTimeExtremeDetector.detectExtremo at h
  dsimp only at h
  split at h
  · exact absurd h (by simp)
  split at h
  · exact absurd h (by simp)
  rename_i hflat
  split at h
  · exact absurd h (by simp)
  rename_i hstrength
  split at h
  · rename_i hmax
    obtain rfl := (Option.some.inj h).symm
    refine ⟨by simpa using hflat, ?_, rfl, ?_⟩
    · simp only [hmax, Bool.true_or, Bool.true_and, Bool.not_eq_true',
        Bool.not_eq_false] at hstrength
      exact hstrength
    · intro i hi hne
      rw [RealTimeExtremeDetector.isLocalMaximum, List.all_eq_true] at hmax
      have := hmax i (List.mem_range.mpr hi)
      simp only [beq_iff_eq, hne, Bool.or_eq_true, decide_eq_true_eq,
        false_or] at this
      exact ⟨fun _ => this, fun hcontra => nomatch hcontra⟩
  split at h
  · rename_i hnotmax hmin
    obtain rfl := (Option.some.inj h).symm
    refine ⟨by simpa using hflat, ?_, rfl, ?_⟩
    · simp only [hmin, Bool.or_true, Bool.true_and, Bool.not_eq_true',
        Bool.not_eq_false] at hstrength
      exact hstrength
    · intro i hi hne
      rw [RealTimeExtremeDetector.isLocalMinimum, List.all_eq_true] at hmin
      have := hmin i (List.mem_range.mpr hi)
      simp only [beq_iff_eq, hne, Bool.or_eq_true, decide_eq_true_eq,
        false_or] at this
      exact ⟨fun hcontra => (nomatch hcontra), fun _ => this⟩
  · exact absurd h (by simp)

/-- C6, witness: the amended theorem applied to the `[1, 1, 5]`
window instance. -/
theorem c6_witness :
    RealTimeExtremeDetector.isFlatRegion [1, 1, 5] 1 (1 / 1000000) = false ∧
    RealTimeExtremeDetector.isStrongExtremo ⟨3, 2, 0⟩ [1, 1, 5] 1
        (RealTimeExtremeDetector.isLocalMaximum [1, 1, 5] 1) = true ∧
    (1 : ℚ) = ([1, 1, 5] : List ℚ).getD 1 0 ∧
    ∀ i < ([1, 1, 5] : List ℚ).length, i ≠ 1 →
      (ExtremoType.minimo = ExtremoType.maximo →
        ([1, 1, 5] : List ℚ).getD i 0 ≤ 1) ∧
      (ExtremoType.minimo = ExtremoType.minimo →
        (1 : ℚ) ≤ ([1, 1, 5] : List ℚ).getD i 0) :=
  c6_pending_weak_extreme ⟨3, 2, 0⟩ ⟨[1, 1, 5], 3, [], []⟩
    ⟨1, 1, .minimo, .pending⟩ (by decide)

/-- C10: if the recent high (trend UP) or recent low (trend DOWN)
computed over the lookback window — which includes the just-ingested
price — is exactly 0, the ingest confirms no pivot and leaves trend,
last pivot and the pivot list untouched (only the price buffer and the
counter grow): the Python guard `if peak_price and peak_index is not
None` treats the float `0.0` as falsy.  The two implication hypotheses
exclude the states where the Python code would instead raise
`ZeroDivisionError` computing its (otherwise unused) `change` local. -/
theorem c10_zero_extreme_no_pivot (cfg : ZigzagConfig) (st : ZigzagState)
    (p : ℚ) (lp : ZigzagPoint)
    (hlp : st.lastPivot = some lp)
    (hlen : 2 ≤ st.prices.length)
    (hpct : cfg.mode = .percentage → lp.price ≠ 0)
    (hpip : cfg.mode = .pips → cfg.pipValue ≠ 0)
    (hzero : (st.currentTrend = some .up ∧
        ZigzagDetector.getRecentHigh 5 (st.prices ++ [p]) = some 0) ∨
      (st.currentTrend = some .down ∧
        ZigzagDetector.getRecentLow 5 (st.prices ++ [p]) = some 0)) :
    ZigzagDetector.addPrice cfg st p =
      .ok ({ st with
              prices := st.prices ++ [p]
              priceIndex := st.priceIndex + 1 }, none) := by
  have hcalc : ∃ c, ZigzagDetector.calculateChange cfg lp.price p = .ok c := by
    unfold ZigzagDetector.calculateChange
    cases hm : cfg.mode
    · exact ⟨_, by rw [if_neg (hpct hm)]⟩
    · exact ⟨_, by rw [if_neg (hpip hm)]⟩
    · exact ⟨_, rfl⟩
  obtain ⟨c, hc⟩ := hcalc
  unfold ZigzagDetector.addPrice
  dsimp only
  rw [if_neg (by simp only [List.length_append, List.length_singleton]; omega),
    if_neg (by simp only [List.length_append, List.length_singleton]; omega)]
  unfold ZigzagDetector.checkForPivot
  dsimp only
  rw [hlp]
  dsimp only
  rw [hc]
  dsimp only
  rcases hzero with ⟨htrend, hz⟩ | ⟨htrend, hz⟩ <;> rw [htrend] <;> dsimp only
  · by_cases hp : ZigzagDetector.isPotentialPeak 3 (st.prices ++ [p]) = true
    · rw [if_pos hp, hz]
      cases hidx : ZigzagDetector.getRecentHighIndex 5 (st.prices ++ [p])
      · rfl
      · dsimp only
        rw [if_neg (by simp)]
    · rw [if_neg hp]
  · by_cases hp : ZigzagDetector.isPotentialValley 3 (st.prices ++ [p]) = true
    · rw [if_pos hp, hz]
      cases hidx : ZigzagDetector.getRecentLowIndex 5 (st.prices ++ [p])
      · rfl
      · dsimp only
        rw [if_neg (by simp)]
    · rw [if_neg hp]

/-- C10, witness: in ABSOLUTE mode with threshold field 1, from the
state reached by ingesting `[-5, -1, 0]` (trend UP, recent high 0), the
ingest of `-3` — a significant drop from that high — emits nothing and
preserves trend, last pivot and the pivot list. -/
theorem c10_witness :
    ZigzagDetector.addPrice (mkZigzagDetector 100 15 .absolute (1/10000))
      ⟨[-5, -1, 0], 3, some .up, some ⟨0, -5, .down, false⟩, []⟩ (-3) =
      .ok (⟨[-5, -1, 0, -3], 4, some .up, some ⟨0, -5, .down, false⟩, []⟩,
        none) :=
  c10_zero_extreme_no_pivot (mkZigzagDetector 100 15 .absolute (1/10000))
    ⟨[-5, -1, 0], 3, some .up, some ⟨0, -5, .down, false⟩, []⟩ (-3)
    ⟨0, -5, .down, false⟩ rfl (by decide) (fun hm => nomatch hm)
    (fun hm => nomatch hm) (Or.inl ⟨rfl, by decide⟩)

/-- C9, counterexample: after ingesting a single price, the last-pivot
query returns the seeded placeholder pivot, whose `confirmed` flag is
`False` — the public interface does expose an unconfirmed pivot. -/
theorem c9_counterexample :
    (ZigzagDetector.finalState (mkZigzagDetector (3/20) 15 .percentage
        (1/10000)) [100]).map
      (fun s => (ZigzagDetector.getLastPivot s).map ZigzagPoint.confirmed) =
      .ok (some false) := by
  decide

/-- C7: for every configuration and input stream whose processing
succeeds, the emitted pivots strictly alternate direction, the current
trend is UNDEFINED exactly while fewer than two samples have been
ingested (then UP or DOWN), and a (single) last pivot exists exactly
from the first ingest on. -/
theorem c7_alternation_and_state (cfg : ZigzagConfig) (l : List ℚ)
    (st : ZigzagState) (out : List ZigzagPoint)
    (h : ZigzagDetector.run cfg initZigzagState l = .ok (st, out)) :
    dirAlternates out = true ∧
    (st.currentTrend = none ↔ l.length ≤ 1) ∧
    (st.lastPivot.isSome = true ↔ 1 ≤ l.length) := by
  have hwf0 : ZigzagStateWF initZigzagState := by
    constructor <;> simp [initZigzagState]
  obtain ⟨hwf, hpr⟩ := run_wf cfg l initZigzagState st out hwf0 h
  have hlen : st.prices.length = l.length := by
    rw [hpr]
    simp [initZigzagState]
  refine ⟨run_dirAlternates cfg l _ _ _ hwf0 h, ?_, ?_⟩
  · rw [← hlen]
    exact hwf.1
  · rw [← hlen]
    exact hwf.2

/-- C7, witness: the run `[100, 110, 115, 100]` under PERCENTAGE mode
with `min_change = 10` emits one pivot and ends with trend DOWN and a
last pivot present. -/
theorem c7_witness :
    dirAlternates [⟨2, 115, .up, true⟩] = true ∧
    ((some ZigzagDirection.down : Option ZigzagDirection) = none ↔
      ([100, 110, 115, 100] : List ℚ).length ≤ 1) ∧
    ((some (⟨2, 115, ZigzagDirection.up, true⟩ : ZigzagPoint)).isSome = true ↔
      1 ≤ ([100, 110, 115, 100] : List ℚ).length) :=
  c7_alternation_and_state (mkZigzagDetector 10 15 .percentage (1/10000))
    [100, 110, 115, 100]
    ⟨[100, 110, 115, 100], 4, some .down, some ⟨2, 115, .up, true⟩,
      [⟨2, 115, .up, true⟩]⟩
    [⟨2, 115, .up, true⟩] (by decide)

/-- C9, amended: every pivot returned by `add_price` and every pivot in
the pivot-list query is confirmed, and once at least one pivot has been
emitted the last-pivot query also returns a confirmed pivot.  (Before
the first emission it returns the unconfirmed seed, see the
counterexample.) -/
theorem c9_emitted_confirmed (cfg : ZigzagConfig) (l : List ℚ)
    (st : ZigzagState) (out : List ZigzagPoint)
    (h : ZigzagDetector.run cfg initZigzagState l = .ok (st, out)) :
    (∀ pv ∈ out, pv.confirmed = true) ∧
    (∀ pv ∈ ZigzagDetector.getZigzagPoints st, pv.confirmed = true) ∧
    (ZigzagDetector.getZigzagPoints st ≠ [] →
      ∃ pv, ZigzagDetector.getLastPivot st = some pv ∧
        pv.confirmed = true) := by
  have hwf0 : PivotsConfirmedWF initZigzagState := by
    refine ⟨fun pv hpv => (nomatch hpv), fun hne => absurd rfl hne, fun _ => rfl⟩
  obtain ⟨⟨hall, hlast, -⟩, hout⟩ := run_pivots cfg l initZigzagState st out
    hwf0 h
  exact ⟨hout, hall, hlast⟩

/-- C9, witness: the amended theorem applied to the emitting run
`[100, 110, 115, 100]`. -/
theorem c9_witness :
    (∀ pv ∈ [(⟨2, 115, ZigzagDirection.up, true⟩ : ZigzagPoint)],
      pv.confirmed = true) ∧
    (∀ pv ∈ ZigzagDetector.getZigzagPoints
        ⟨[100, 110, 115, 100], 4, some .down, some ⟨2, 115, .up, true⟩,
          [⟨2, 115, .up, true⟩]⟩, pv.confirmed = true) ∧
    (ZigzagDetector.getZigzagPoints
        ⟨[100, 110, 115, 100], 4, some .down, some ⟨2, 115, .up, true⟩,
          [⟨2, 115, .up, true⟩]⟩ ≠ [] →
      ∃ pv, ZigzagDetector.getLastPivot
          ⟨[100, 110, 115, 100], 4, some .down, some ⟨2, 115, .up, true⟩,
            [⟨2, 115, .up, true⟩]⟩ = some pv ∧ pv.confirmed = true) :=
  c9_emitted_confirmed (mkZigzagDetector 10 15 .percentage (1/10000))
    [100, 110, 115, 100]
    ⟨[100, 110, 115, 100], 4, some .down, some ⟨2, 115, .up, true⟩,
      [⟨2, 115, .up, true⟩]⟩
    [⟨2, 115, .up, true⟩] (by decide)

/-- C8: for every strictly monotonically increasing price stream and
every validly-sized (odd) window configuration, the Window Extremum
Detector confirms nothing — and creates no candidate either: after the
whole run both the confirmed and the pending lists are empty.  Since
every prefix of a strictly increasing stream is strictly increasing,
this holds after every ingest. -/
theorem c8_monotone_no_extrema (cfg : RTConfig) (l : List ℚ)
    (hodd : cfg.windowSize % 2 = 1)
    (hchain : List.Chain' (· < ·) l) :
    (RealTimeExtremeDetector.finalState cfg l).extremosConfirmed = [] ∧
    (RealTimeExtremeDetector.finalState cfg l).extremosPending = [] := by
  obtain ⟨hp, hc⟩ := runE_chain_empty cfg hodd l initExtremeState
    (by simpa [initExtremeState] using hchain) rfl rfl
  exact ⟨hc, hp⟩

/-- C8, witness: the strictly increasing stream `[1, 2, 3, 4, 5, 6, 7]`
with `window_size = 3`, `confirmation_periods = 2` confirms nothing. -/
theorem c8_witness :
    (RealTimeExtremeDetector.finalState ⟨3, 2, 0⟩
      [1, 2, 3, 4, 5, 6, 7]).extremosConfirmed = [] ∧
    (RealTimeExtremeDetector.finalState ⟨3, 2, 0⟩
      [1, 2, 3, 4, 5, 6, 7]).extremosPending = [] :=
  c8_monotone_no_extrema ⟨3, 2, 0⟩ [1, 2, 3, 4, 5, 6, 7] (by decide)
    (by norm_num [List.chain'_cons])

end RatKernelEval
